import Mathlib

/-!
Shallow embedding of `src/my_data_app.py` (a CoinAfrique animal-listings
scraper with SQLite persistence): the string-cleaning helpers, pagination
detection, the category scraping loop with its insert-if-absent
persistence, the cleaning pipeline, and the upload import adapter.

Modelling conventions:
* Python `str` is `String`, Python `None` is `Option.none`.
* The SQLite tables `raw_data` / `cleaned_data` are `List` values threaded
  explicitly through each function; the `id`, `source_url` (where unused),
  `scraped_at` and `cleaned_at` columns that take part in no comparison are
  kept only where the program reads them.
* A SQL `WHERE col = ?` comparison follows SQLite semantics: a comparison
  with `NULL` on either side is not true, so it never selects a row
  (`sqlEqStr`, `sqlEqQ`).
* Fetching (`requests.get` + BeautifulSoup) is an oracle
  `env : String → Option Soup`: `none` is a fetch failure, and a parsed
  page is its list of anchor `href` targets together with the
  `parse_container` output (four optional text fields) of each listing
  card found by the CSS selector.
* Python floats are modelled as `ℚ`; every numeral the program parses
  (strings of digits and at most one dot) is exact in both.
* Recursive string scans are written with an explicit fuel argument equal
  to the input length so that every definition reduces inside the kernel;
  the fuel never runs out on the initial call.
-/

namespace MyDataApp

/-- Whitespace as Python's `str.strip` / `str.split` see it (the code points
that actually occur in this program's data: ASCII whitespace and NBSP). -/
def pyIsSpace (c : Char) : Bool :=
  c = ' ' || c = '\t' || c = '\n' || c = '\r' || c = '\x0b' || c = '\x0c' || c = '\u00A0'

/-- Python `str.strip()` on a character list: drop leading and trailing
whitespace. -/
def stripList (l : List Char) : List Char :=
  ((l.dropWhile pyIsSpace).reverse.dropWhile pyIsSpace).reverse

/-- Python `str.strip()`. -/
def pyStrip (s : String) : String := ⟨stripList s.data⟩

/-- Numeric value of a digit string, as Python `int` reads `"12500"`. -/
def natOfDigits (l : List Char) : Nat := l.foldl (fun a c => 10 * a + (c.toNat - 48)) 0

/-- Python `str.replace(pat, "")`: one left-to-right pass deleting each
non-overlapping occurrence of `pat`; text formed by a deletion joining its
two sides is not rescanned.  Fuel-driven so the kernel can evaluate it;
`removeList` supplies enough fuel. -/
def removeFuel (pat : List Char) : Nat → List Char → List Char
  | _, [] => []
  | 0, l => l
  | fuel + 1, c :: rest =>
    if pat ≠ [] ∧ pat.isPrefixOf (c :: rest) then
      removeFuel pat fuel ((c :: rest).drop pat.length)
    else
      c :: removeFuel pat fuel rest

/-- Python `str.replace(pat, "")` on character lists (for nonempty `pat`,
the only case the program exercises). -/
def removeList (pat l : List Char) : List Char := removeFuel pat l.length l

/-- Python `s.replace(pat, "")` on strings. -/
def pyReplaceDel (s pat : String) : String := ⟨removeList pat.data s.data⟩

/-- Python `str.split()` (no separator): split on whitespace runs and drop
empty pieces.  `cur` accumulates the current word reversed. -/
def splitWsAux : List Char → List Char → List (List Char)
  | [], cur => if cur.isEmpty then [] else [cur.reverse]
  | c :: rest, cur =>
    if pyIsSpace c then
      if cur.isEmpty then splitWsAux rest [] else cur.reverse :: splitWsAux rest []
    else splitWsAux rest (c :: cur)

/-- Python `s.split()` with no argument. -/
def pySplitWs (l : List Char) : List (List Char) := splitWsAux l []

/-- Python `" ".join(words)`. -/
def joinSp : List (List Char) → List Char
  | [] => []
  | w :: ws =>
    match ws with
    | [] => w
    | _ :: _ => w ++ ' ' :: joinSp ws

/-- Source `clean_address` (src/my_data_app.py lines 183-188): `None` stays
`None`; otherwise delete the `"location_on"` marker, strip, collapse
whitespace runs via `" ".join(s.split())`, and return `None` for an empty
result. -/
def clean_address : Option String → Option String
  | none => none
  | some raw =>
    let s := pyStrip (pyReplaceDel raw "location_on")
    let s2 : String := ⟨joinSp (pySplitWs s.data)⟩
    if s2 = "" then none else some s2

/-- Source `clean_price` token-stripping loop (lines 174-176): delete each
of `"CFA"`, `"cfa"`, `"XOF"`, `"\u00a0"`, `"\xa0"`, `" "` in turn (the two
NBSP escapes denote the same character), then delete commas. -/
def priceStripped (s : String) : String :=
  pyReplaceDel (["CFA", "cfa", "XOF", "\u00A0", "\u00A0", " "].foldl pyReplaceDel s) ","

/-- Source `clean_price` digit filter (line 177): keep only digits and
decimal points. -/
def priceResidue (s : String) : List Char :=
  (priceStripped s).data.filter (fun c => c.isDigit || c = '.')

/-- Python `float(digits)` for a string made of digits and dots, `none`
where `float` raises (empty string, more than one dot, a lone dot). -/
def pyFloatOfDigits (l : List Char) : Option ℚ :=
  if l.isEmpty then none
  else if l.count '.' = 0 then some (natOfDigits l : ℚ)
  else if l.count '.' = 1 then
    let intp := l.takeWhile (fun c => c ≠ '.')
    let frac := (l.dropWhile (fun c => c ≠ '.')).tail
    if intp.isEmpty && frac.isEmpty then none
    else some ((natOfDigits intp : ℚ) + (natOfDigits frac : ℚ) / ((10 : ℚ) ^ frac.length))
  else none

/-- Source `clean_price` (lines 170-181): `None` for `None`, else strip
tokens, filter to digits/dots, parse as float, `None` when the residue is
empty or unparsable. -/
def clean_price : Option String → Option ℚ
  | none => none
  | some raw => pyFloatOfDigits (priceResidue raw)

/-- Fuel-driven Python `str.split(sep)` for a nonempty separator: one
left-to-right pass; `cur` holds the current piece reversed.  `splitOnList`
supplies enough fuel, so the `0` case is never reached on the initial
call. -/
def splitOnFuel (pat : List Char) : Nat → List Char → List Char → List (List Char)
  | _, [], cur => [cur.reverse]
  | 0, l, cur => [cur.reverse ++ l]
  | fuel + 1, c :: rest, cur =>
    if pat ≠ [] ∧ pat.isPrefixOf (c :: rest) then
      cur.reverse :: splitOnFuel pat fuel ((c :: rest).drop pat.length) []
    else splitOnFuel pat fuel rest (c :: cur)

/-- Python `s.split(pat)` on character lists, for nonempty `pat`. -/
def splitOnList (pat l : List Char) : List (List Char) := splitOnFuel pat l.length l []

/-- Per-link body of `detect_last_page` (lines 84-92): when `"page=" in
href`, take `href.split("page=")[-1].split("&")[0]`, keep its digits and
read them as an integer; `none` when the link has no `page=` or `int("")`
raises (the swallowed per-link failure). -/
def extractPageNum (href : String) : Option Nat :=
  let parts := splitOnList "page=".data href.data
  if parts.length > 1 then
    let part := (splitOnList "&".data (parts.getLastD [])).headD []
    let digits := part.filter Char.isDigit
    if digits.isEmpty then none else some (natOfDigits digits)
  else none

/-- Source `detect_last_page` (lines 79-93): fold over all anchor targets,
starting from 1 and keeping any strictly larger extracted page number. -/
def detect_last_page (links : List String) : Nat :=
  links.foldl
    (fun max_page href =>
      match extractPageNum href with
      | none => max_page
      | some num => if num > max_page then num else max_page)
    1

/-- A fetched-and-parsed page: its anchor `href` targets (what
`detect_last_page` reads) and the `parse_container` output of each listing
card (what the scraping loop reads). -/
structure Soup where
  links : List String
  containers : List (Option String × Option String × Option String × Option String)

/-- Source `CATEGORIES` mapping (lines 18-23). -/
def CATEGORIES : List (String × String) :=
  [("chiens", "https://sn.coinafrique.com/categorie/chiens"),
   ("moutons", "https://sn.coinafrique.com/categorie/moutons"),
   ("poules-lapins-et-pigeons", "https://sn.coinafrique.com/categorie/poules-lapins-et-pigeons"),
   ("autres-animaux", "https://sn.coinafrique.com/categorie/autres-animaux")]

/-- Python `CATEGORIES[category_key]`, `none` for the `KeyError` case. -/
def lookupCategory (key : String) : Option String :=
  (CATEGORIES.find? (fun p => p.1 == key)).map Prod.snd

/-- A `raw_data` row as the program compares and stores it (`id` and
`scraped_at` take part in no comparison and are dropped). -/
structure RawRow where
  category : String
  source_url : String
  v1 : Option String
  v2 : Option String
  v3 : Option String
  v4 : Option String
deriving DecidableEq, Repr

/-- SQLite `col = ?` on TEXT columns: `NULL` on either side selects
nothing. -/
def sqlEqStr : Option String → Option String → Bool
  | some a, some b => a == b
  | _, _ => false

/-- SQLite `col = ?` on the REAL `price` column. -/
def sqlEqQ : Option ℚ → Option ℚ → Bool
  | some a, some b => a == b
  | _, _ => false

/-- The scraper's duplicate query (lines 144-146): `SELECT 1 FROM raw_data
WHERE category=? AND v1=? AND v2=? AND v3=? AND v4=?` with the current
record's fields as parameters. -/
def rawDup (cat : String) (v1 v2 v3 v4 : Option String) (r : RawRow) : Bool :=
  (r.category == cat) && sqlEqStr r.v1 v1 && sqlEqStr r.v2 v2 &&
    sqlEqStr r.v3 v3 && sqlEqStr r.v4 v4

/-- Lines 144-152: insert the raw record unless the duplicate query
selected a row. -/
def insertRawIfAbsent (store : List RawRow) (cat url : String)
    (v1 v2 v3 v4 : Option String) : List RawRow :=
  if store.any (rawDup cat v1 v2 v3 v4) then store
  else store ++ [⟨cat, url, v1, v2, v3, v4⟩]

/-- Line 132: `f"{base}?page={page}"`. -/
def pageUrl (base : String) (page : Nat) : String := base ++ "?page=" ++ toString page

/-- The body of the per-container loop (lines 139-152): append the
extracted record to the in-memory rows and, when `save_raw`, run the
insert-if-absent against the store. -/
def scrapeContStep (key url : String) (save_raw : Bool)
    (a : List RawRow × List RawRow)
    (c : Option String × Option String × Option String × Option String) :
    List RawRow × List RawRow :=
  (a.1 ++ [⟨key, url, c.1, c.2.1, c.2.2.1, c.2.2.2⟩],
   if save_raw then insertRawIfAbsent a.2 key url c.1 c.2.1 c.2.2.1 c.2.2.2 else a.2)

/-- One iteration of the page loop (lines 131-154): on fetch failure warn
and `continue`; otherwise run the container loop over the page's cards. -/
def scrapePage (key base : String) (save_raw : Bool) (env : String → Option Soup)
    (acc : List RawRow × List RawRow) (page : Nat) : List RawRow × List RawRow :=
  match env (pageUrl base page) with
  | none => acc
  | some soup => soup.containers.foldl (scrapeContStep key (pageUrl base page) save_raw) acc

/-- The records one page contributes to the in-memory result: none when its
fetch fails, one per extracted card otherwise. -/
def pageRows (key base : String) (env : String → Option Soup) (p : Nat) : List RawRow :=
  match env (pageUrl base p) with
  | none => []
  | some soup => soup.containers.map (fun c => ⟨key, pageUrl base p, c.1, c.2.1, c.2.2.1, c.2.2.2⟩)

/-- Lines 123-129: fetch the base page and estimate the page count,
falling back to 1 on fetch failure, then clamp by a truthy positive
`max_pages`. -/
def computeLast (env : String → Option Soup) (base : String) (max_pages : Option Nat) : Nat :=
  let detected := match env base with
    | some soup => detect_last_page soup.links
    | none => 1
  match max_pages with
  | some m => if 0 < m then min detected m else detected
  | none => detected

/-- The `KeyError` raised by `CATEGORIES[category_key]` on an unrecognized
key, which the spec names `UnknownCategoryError`. -/
structure UnknownCategoryError where
  key : String
deriving DecidableEq, Repr

/-- Source `scrape_category` (lines 119-156): look the key up (an unknown
key raises), compute the page bound, walk the pages threading the
in-memory row list and the raw store, and return both (the returned
DataFrame is the row list; the store is the persistent side effect). -/
def scrape_category (env : String → Option Soup) (key : String) (max_pages : Option Nat)
    (save_raw : Bool) (store : List RawRow) :
    Except UnknownCategoryError (List RawRow × List RawRow) :=
  match lookupCategory key with
  | none => .error ⟨key⟩
  | some base =>
    .ok ((List.range' 1 (computeLast env base max_pages)).foldl
      (scrapePage key base save_raw env) ([], store))

/-- A row of the raw DataFrame as `clean_raw_dataframe` reads it
(`r.get` of the five columns it uses; a missing column reads as `None`). -/
structure RawIn where
  category : Option String
  v1 : Option String
  v2 : Option String
  v3 : Option String
  v4 : Option String
deriving DecidableEq, Repr

/-- A `cleaned_data` row as the program compares, stores and returns it
(`id` and `cleaned_at` take part in no comparison and are dropped). -/
structure CleanedRow where
  category : Option String
  name : Option String
  price : Option ℚ
  address : Option String
  image : Option String
deriving DecidableEq, Repr

/-- Line 199: `v1.strip() if isinstance(v1, str) else None`. -/
def cleanName : Option String → Option String
  | some s => some (pyStrip s)
  | none => none

/-- Lines 194-203: derive one cleaned record from one raw row. -/
def cleanRow (r : RawIn) : CleanedRow :=
  { category := r.category
    name := cleanName r.v1
    price := clean_price r.v2
    address := clean_address r.v3
    image := r.v4 }

/-- The cleaning pipeline's duplicate query (lines 205-207): `SELECT 1 FROM
cleaned_data WHERE category=? AND name=? AND price=? AND address=?`. -/
def cleanedDup (cr : CleanedRow) (stored : CleanedRow) : Bool :=
  sqlEqStr stored.category cr.category && sqlEqStr stored.name cr.name &&
    sqlEqQ stored.price cr.price && sqlEqStr stored.address cr.address

/-- The key pandas `drop_duplicates(subset=["name","price","address"])`
compares on. -/
def npaKey (r : CleanedRow) : Option String × Option ℚ × Option String :=
  (r.name, r.price, r.address)

/-- pandas `drop_duplicates` keeping the first occurrence of each key
(pandas treats two missing values as equal, as `Option.none = Option.none`
does here). -/
def dropDupsAux : List (Option String × Option ℚ × Option String) → List CleanedRow → List CleanedRow
  | _, [] => []
  | seen, r :: rest =>
    if seen.any (fun k => decide (k = npaKey r)) then dropDupsAux seen rest
    else r :: dropDupsAux (npaKey r :: seen) rest

/-- Line 216: `df_clean.drop_duplicates(subset=["name","price","address"])`. -/
def drop_duplicates_npa (l : List CleanedRow) : List CleanedRow := dropDupsAux [] l

/-- The body of the cleaning loop (lines 193-213): clean the row, append it
to the in-memory result, and insert it into the cleaned store unless the
duplicate query selected a row. -/
def cleanStep (a : List CleanedRow × List CleanedRow) (r : RawIn) :
    List CleanedRow × List CleanedRow :=
  let cr := cleanRow r
  (a.1 ++ [cr], if a.2.any (cleanedDup cr) then a.2 else a.2 ++ [cr])

/-- Source `clean_raw_dataframe` (lines 190-217): run the cleaning loop and
return the in-memory result de-duplicated on (name, price, address); the
updated store is the side effect. -/
def clean_raw_dataframe (df : List RawIn) (store : List CleanedRow) :
    List CleanedRow × List CleanedRow :=
  let acc := df.foldl cleanStep ([], store)
  (drop_duplicates_npa acc.1, acc.2)

/-- A row of an uploaded table, restricted to the columns
`save_uploaded_to_raw` probes; a column absent from the upload reads as
`none`.  `nameCaps` models the column literally named `"Name"`. -/
structure UploadRow where
  name : Option String
  nameCaps : Option String
  title : Option String
  details : Option String
  price : Option String
  price_raw : Option String
  prix : Option String
  address : Option String
  location : Option String
  address_raw : Option String
  image : Option String
  image_src : Option String
  image_link : Option String
deriving DecidableEq, Repr

/-- Python `a or b` on optional strings: `None` and `""` are falsy. -/
def pyOr (a b : Option String) : Option String :=
  match a with
  | none => b
  | some s => if s = "" then b else some s

/-- Python `str(v)` on an optional string: `str(None)` is the literal text
`"None"`. -/
def pyStr : Option String → String
  | none => "None"
  | some s => s

/-- Line 226: `row.get("name") or row.get("Name") or row.get("title") or
row.get("details")`. -/
def uploadV1 (row : UploadRow) : Option String :=
  pyOr row.name (pyOr row.nameCaps (pyOr row.title row.details))

/-- Line 227: `row.get("price") or row.get("price_raw") or
row.get("prix")`. -/
def uploadV2 (row : UploadRow) : Option String :=
  pyOr row.price (pyOr row.price_raw row.prix)

/-- Line 228: `row.get("address") or row.get("location") or
row.get("address_raw")`. -/
def uploadV3 (row : UploadRow) : Option String :=
  pyOr row.address (pyOr row.location row.address_raw)

/-- Line 229: `row.get("image") or row.get("image_src") or
row.get("image_link")`. -/
def uploadV4 (row : UploadRow) : Option String :=
  pyOr row.image (pyOr row.image_src row.image_link)

/-- Lines 233-236: the raw record an uploaded row maps to — all four
fields stringified, fixed category and source sentinels. -/
def mappedRow (row : UploadRow) : RawRow :=
  ⟨"uploaded", "uploaded_file", some (pyStr (uploadV1 row)), some (pyStr (uploadV2 row)),
   some (pyStr (uploadV3 row)), some (pyStr (uploadV4 row))⟩

/-- The import adapter's duplicate query (line 231): `SELECT 1 FROM
raw_data WHERE v1=? AND v2=? AND v3=? AND v4=?` — category and source are
not part of the match. -/
def uploadDup (row : UploadRow) (r : RawRow) : Bool :=
  sqlEqStr r.v1 (mappedRow row).v1 && sqlEqStr r.v2 (mappedRow row).v2 &&
    sqlEqStr r.v3 (mappedRow row).v3 && sqlEqStr r.v4 (mappedRow row).v4

/-- The body of the import loop (lines 224-237): insert the mapped record
unless the duplicate query selected a row, incrementing the saved
count on insert. -/
def uploadStep (a : Nat × List RawRow) (row : UploadRow) : Nat × List RawRow :=
  if a.2.any (uploadDup row) then a
  else (a.1 + 1, a.2 ++ [mappedRow row])

/-- Source `save_uploaded_to_raw` (lines 222-239): run the import loop and
return the count of rows actually inserted; the updated store is the side
effect. -/
def save_uploaded_to_raw (df : List UploadRow) (store : List RawRow) : Nat × List RawRow :=
  df.foldl uploadStep (0, store)

/-- Whether a character list contains two consecutive space characters (a
multi-space run). -/
def hasDoubleSpace : List Char → Bool
  | [] => false
  | [_] => false
  | a :: b :: rest => (a = ' ' && b = ' ') || hasDoubleSpace (b :: rest)

/-- Whether a string contains the extraction-artifact marker
`"location_on"` as a substring (a string contains a nonempty pattern
exactly when splitting on it yields more than one piece). -/
def containsMarker (s : String) : Bool :=
  decide ((splitOnList "location_on".data s.data).length > 1)

/-- Transcription of the claim's wording for the cleaned `name` (to compare
with the source's `cleanName`): v1 trimmed if v1 is a non-empty string,
else absent. -/
def nameFromSpec : Option String → Option String
  | some s => if s = "" then none else some (pyStrip s)
  | none => none

/-- A fetch oracle for exercising `scrape_category`: every URL yields a
page with no pagination links and a single card whose price field is
missing (`v2 = None`). -/
def envNullPrice : String → Option Soup :=
  fun _ => some ⟨[], [(some "Rex", none, some "Dakar", some "img.jpg")]⟩

/-- The raw record `scrape_category` extracts under `envNullPrice` for the
`"chiens"` category. -/
def rowNullPrice : RawRow :=
  ⟨"chiens", "https://sn.coinafrique.com/categorie/chiens?page=1",
   some "Rex", none, some "Dakar", some "img.jpg"⟩

/-- A fetch oracle whose single page carries two identical cards. -/
def envTwinCards : String → Option Soup :=
  fun _ => some ⟨[], [(some "a", some "1", some "x", some "y"),
                      (some "a", some "1", some "x", some "y")]⟩

/-- The raw record extracted (twice) under `envTwinCards` for `"chiens"`. -/
def rowTwin : RawRow :=
  ⟨"chiens", "https://sn.coinafrique.com/categorie/chiens?page=1",
   some "a", some "1", some "x", some "y"⟩

/-- A one-row raw table whose price/location/image fields are missing. -/
def dfNullFields : List RawIn := [⟨some "chiens", some "Rex", none, none, none⟩]

/-- The cleaned record `clean_raw_dataframe` derives from `dfNullFields`:
name present, price/address/image absent. -/
def crNullFields : CleanedRow := ⟨some "chiens", some "Rex", none, none, none⟩

/-- The claim's example upload row: `name="Rex"`, `price="50000"`, and no
address/image columns. -/
def rexRow : UploadRow :=
  ⟨some "Rex", none, none, none, some "50000", none, none, none, none, none, none, none, none⟩

/-- The raw record the import adapter derives from `rexRow`: the missing
fields become the stringified-missing sentinel `"None"`. -/
def rexMapped : RawRow :=
  ⟨"uploaded", "uploaded_file", some "Rex", some "50000", some "None", some "None"⟩

/-! Lemmas about the string helpers. -/

/-- Deleting occurrences of a pattern never introduces characters. -/
theorem mem_of_mem_removeFuel (pat : List Char) :
    ∀ fuel l (c : Char), c ∈ removeFuel pat fuel l → c ∈ l := by
  intro fuel
  induction fuel with
  | zero =>
    intro l c h
    cases l with
    | nil => simp [removeFuel] at h
    | cons x rest => simpa [removeFuel] using h
  | succ n ih =>
    intro l c h
    cases l with
    | nil => simp [removeFuel] at h
    | cons x rest =>
      rw [removeFuel] at h
      by_cases hp : pat ≠ [] ∧ pat.isPrefixOf (x :: rest)
      · rw [if_pos hp] at h
        exact List.mem_of_mem_drop (ih _ _ h)
      · rw [if_neg hp] at h
        rcases List.mem_cons.mp h with h1 | h2
        · exact h1 ▸ List.mem_cons_self x rest
        · exact List.mem_cons_of_mem x (ih _ _ h2)

/-- Characters of a `replace`-deleted string come from the original. -/
theorem mem_of_mem_pyReplaceDel {c : Char} {s pat : String}
    (h : c ∈ (pyReplaceDel s pat).data) : c ∈ s.data :=
  mem_of_mem_removeFuel pat.data s.data.length s.data c h

/-- Characters of `clean_price`'s token-stripped string come from the
original price text. -/
theorem mem_of_mem_priceStripped {c : Char} {s : String}
    (h : c ∈ (priceStripped s).data) : c ∈ s.data := by
  unfold priceStripped at h
  simp only [List.foldl] at h
  exact mem_of_mem_pyReplaceDel (mem_of_mem_pyReplaceDel (mem_of_mem_pyReplaceDel
    (mem_of_mem_pyReplaceDel (mem_of_mem_pyReplaceDel (mem_of_mem_pyReplaceDel
      (mem_of_mem_pyReplaceDel h))))))

/-- Python `float` rejects a string made only of dots. -/
theorem pyFloatOfDigits_eq_none_of_all_dots (l : List Char) (h : ∀ c ∈ l, c = '.') :
    pyFloatOfDigits l = none := by
  match l with
  | [] => rfl
  | [x] =>
    have hx : x = '.' := h x (by simp)
    subst hx
    rfl
  | x :: y :: rest =>
    have hcount : (x :: y :: rest).count '.' = (x :: y :: rest).length :=
      List.count_eq_length.mpr (fun b hb => (h b hb).symm)
    simp [pyFloatOfDigits, hcount]

/-- C5: for every input, `clean_price` strips currency tokens and
whitespace, removes commas, keeps only digits and dots and parses the
residue as a number; it is absent for an absent input, absent whenever the
residue is empty, absent when no digit occurs in the input (so `"gratuit"`
yields absent, never a default 0), and `"12 500 CFA"` parses to 12500. -/
theorem clean_price_spec :
    clean_price none = none ∧
    clean_price (some "12 500 CFA") = some ((12500 : ℕ) : ℚ) ∧
    clean_price (some "gratuit") = none ∧
    (∀ s : String, (∀ c ∈ s.data, c.isDigit = false) → clean_price (some s) = none) ∧
    (∀ (s : String) (q : ℚ), clean_price (some s) = some q → priceResidue s ≠ []) := by
  refine ⟨rfl, by decide, by decide, ?_, ?_⟩
  · intro s hd
    show pyFloatOfDigits (priceResidue s) = none
    apply pyFloatOfDigits_eq_none_of_all_dots
    intro c hc
    rcases List.mem_filter.mp hc with ⟨hmem, hcond⟩
    have hs : c ∈ s.data := mem_of_mem_priceStripped hmem
    have hnd := hd c hs
    simp [hnd] at hcond
    exact hcond
  · intro s q h hempty
    have : pyFloatOfDigits (priceResidue s) = some q := h
    rw [hempty] at this
    simp [pyFloatOfDigits] at this

/-- Witness for `clean_price_spec`: the no-digit clause applied at the
concrete input `"gratuit"`. -/
theorem clean_price_spec_witness : clean_price (some "gratuit") = none :=
  clean_price_spec.2.2.2.1 "gratuit" (by decide)

/-- A list without space characters has no double space. -/
theorem hds_of_nospace : ∀ l : List Char, (∀ c ∈ l, c ≠ ' ') → hasDoubleSpace l = false := by
  intro l
  induction l with
  | nil => intro _; rfl
  | cons a t ih =>
    intro h
    have ha : a ≠ ' ' := h a (by simp)
    have ht : ∀ c ∈ t, c ≠ ' ' := fun c hc => h c (List.mem_cons_of_mem a hc)
    cases t with
    | nil => rfl
    | cons b u =>
      have hb : b ≠ ' ' := ht b (by simp)
      simp only [hasDoubleSpace, Bool.or_eq_false_iff, Bool.and_eq_false_iff]
      exact ⟨Or.inl (by simp [ha]), ih ht⟩

/-- Prepending space-free text cannot create a double space. -/
theorem hds_append (w l : List Char) (hw : ∀ c ∈ w, c ≠ ' ')
    (hl : hasDoubleSpace l = false) : hasDoubleSpace (w ++ l) = false := by
  induction w with
  | nil => simpa using hl
  | cons a t ih =>
    have ha : a ≠ ' ' := hw a (by simp)
    have ht : ∀ c ∈ t, c ≠ ' ' := fun c hc => hw c (List.mem_cons_of_mem a hc)
    have ih' := ih ht
    show hasDoubleSpace (a :: (t ++ l)) = false
    cases htl : t ++ l with
    | nil => rfl
    | cons b u =>
      rw [htl] at ih'
      simp only [hasDoubleSpace, Bool.or_eq_false_iff, Bool.and_eq_false_iff]
      exact ⟨Or.inl (by simp [ha]), ih'⟩

/-- Every word `str.split()` produces is nonempty and whitespace-free. -/
theorem splitWsAux_words : ∀ (l cur : List Char), (∀ c ∈ cur, pyIsSpace c = false) →
    ∀ w ∈ splitWsAux l cur, w ≠ [] ∧ ∀ c ∈ w, pyIsSpace c = false := by
  intro l
  induction l with
  | nil =>
    intro cur hcur w hw
    by_cases hc : cur.isEmpty
    · simp [splitWsAux, hc] at hw
    · simp only [splitWsAux, if_neg hc, List.mem_singleton] at hw
      subst hw
      refine ⟨?_, fun c hcc => hcur c (List.mem_reverse.mp hcc)⟩
      simp only [ne_eq, List.reverse_eq_nil_iff]
      intro hnil
      rw [hnil] at hc
      exact hc rfl
  | cons a t ih =>
    intro cur hcur w hw
    rw [splitWsAux] at hw
    by_cases hs : pyIsSpace a = true
    · rw [if_pos hs] at hw
      by_cases hc : cur.isEmpty
      · rw [if_pos hc] at hw
        exact ih [] (by simp) w hw
      · rw [if_neg hc] at hw
        rcases List.mem_cons.mp hw with h1 | h2
        · subst h1
          refine ⟨?_, fun c hcc => hcur c (List.mem_reverse.mp hcc)⟩
          simp only [ne_eq, List.reverse_eq_nil_iff]
          intro hnil
          rw [hnil] at hc
          exact hc rfl
        · exact ih [] (by simp) w h2
    · rw [if_neg hs] at hw
      refine ih (a :: cur) ?_ w hw
      intro c hc
      rcases List.mem_cons.mp hc with rfl | h
      · simpa using hs
      · exact hcur c h

/-- Joining nonempty space-free words with single spaces yields no double
space, and the result starts with a non-space character. -/
theorem joinSp_good : ∀ ws : List (List Char),
    (∀ w ∈ ws, w ≠ [] ∧ ∀ c ∈ w, pyIsSpace c = false) →
    hasDoubleSpace (joinSp ws) = false ∧
      ∀ c, (joinSp ws).head? = some c → pyIsSpace c = false := by
  intro ws
  induction ws with
  | nil =>
    intro _
    exact ⟨rfl, by intro c h; simp [joinSp] at h⟩
  | cons w ws ih =>
    intro h
    have hw := h w (List.mem_cons_self w ws)
    have hwne : ∀ c ∈ w, c ≠ ' ' := by
      intro c hc he
      have := hw.2 c hc
      rw [he] at this
      simp [pyIsSpace] at this
    have hws : ∀ w' ∈ ws, w' ≠ [] ∧ ∀ c ∈ w', pyIsSpace c = false :=
      fun w' hw' => h w' (List.mem_cons_of_mem w hw')
    have ihr := ih hws
    cases ws with
    | nil =>
      constructor
      · exact hds_of_nospace w hwne
      · intro c hc
        cases w with
        | nil => simp [joinSp] at hc
        | cons a t =>
          have : a = c := by simpa [joinSp] using hc
          subst this
          exact hw.2 a (by simp)
    | cons w2 ws2 =>
      have hjoin : joinSp (w :: w2 :: ws2) = w ++ ' ' :: joinSp (w2 :: ws2) := rfl
      rw [hjoin]
      constructor
      · apply hds_append w _ hwne
        cases hJ : joinSp (w2 :: ws2) with
        | nil => rfl
        | cons b u =>
          have hb : b ≠ ' ' := by
            intro he
            have := ihr.2 b (by rw [hJ]; rfl)
            rw [he] at this
            simp [pyIsSpace] at this
          have hrest : hasDoubleSpace (b :: u) = false := by rw [← hJ]; exact ihr.1
          simp only [hasDoubleSpace, Bool.or_eq_false_iff, Bool.and_eq_false_iff]
          exact ⟨Or.inr (by simp [hb]), hrest⟩
      · intro c hc
        cases w with
        | nil => exact absurd rfl hw.1
        | cons a t =>
          have : a = c := by simpa using hc
          subst this
          exact hw.2 a (by simp)

/-- C6 (amended): `clean_address` maps an absent input to absent, a present
result is non-empty and free of multi-space runs, and the claim's example
normalizes as stated; the marker-freeness part of the claim is dropped
(see `clean_address_marker_survives`). -/
theorem clean_address_normalizes :
    clean_address none = none ∧
    clean_address (some "location_on  Dakar,  Sénégal") = some "Dakar, Sénégal" ∧
    (∀ s t : String, clean_address (some s) = some t →
      t ≠ "" ∧ hasDoubleSpace t.data = false) := by
  refine ⟨rfl, by decide, ?_⟩
  intro s t h
  have h' : (if (⟨joinSp (pySplitWs (pyStrip (pyReplaceDel s "location_on")).data)⟩ : String) = ""
      then (none : Option String)
      else some ⟨joinSp (pySplitWs (pyStrip (pyReplaceDel s "location_on")).data)⟩) = some t := h
  by_cases hc : (⟨joinSp (pySplitWs (pyStrip (pyReplaceDel s "location_on")).data)⟩ : String) = ""
  · rw [if_pos hc] at h'
    exact absurd h' (by simp)
  · rw [if_neg hc] at h'
    have ht : t = ⟨joinSp (pySplitWs (pyStrip (pyReplaceDel s "location_on")).data)⟩ :=
      (Option.some.inj h').symm
    subst ht
    refine ⟨hc, ?_⟩
    exact (joinSp_good _ (splitWsAux_words _ [] (by simp))).1

/-- C6 counterexample: deleting the marker can splice its two halves into a
fresh marker, so a present cleaned address may still contain
`"location_on"`, contradicting the claim's "contains no marker text". -/
theorem clean_address_marker_survives :
    clean_address (some "location_location_onon") = some "location_on" ∧
    containsMarker "location_on" = true :=
  ⟨by decide, by decide⟩

/-- Witness for `clean_address_normalizes`: its present-result clause
applied at the claim's own example. -/
theorem clean_address_normalizes_witness :
    ("Dakar, Sénégal" : String) ≠ "" ∧ hasDoubleSpace ("Dakar, Sénégal" : String).data = false :=
  clean_address_normalizes.2.2 "location_on  Dakar,  Sénégal" "Dakar, Sénégal"
    clean_address_normalizes.2.1

/-- The pagination fold, from any accumulator, computes the running
maximum of the per-link extracted page numbers. -/
theorem detect_foldl_aux : ∀ (links : List String) (a : Nat),
    links.foldl
      (fun max_page href =>
        match extractPageNum href with
        | none => max_page
        | some num => if num > max_page then num else max_page)
      a
    = (links.filterMap extractPageNum).foldl max a := by
  intro links
  induction links with
  | nil => intro a; rfl
  | cons h t ih =>
    intro a
    simp only [List.foldl_cons, List.filterMap_cons]
    cases e : extractPageNum h with
    | none => simp only [e]; exact ih a
    | some n =>
      simp only [e, List.foldl_cons]
      rw [ih]
      congr 1
      by_cases hgt : n > a
      · rw [if_pos hgt, Nat.max_eq_right (Nat.le_of_lt hgt)]
      · rw [if_neg hgt, Nat.max_eq_left (Nat.le_of_not_lt hgt)]

/-- A fold of `max` never drops below its starting accumulator. -/
theorem le_foldl_max : ∀ (l : List Nat) (a : Nat), a ≤ l.foldl max a := by
  intro l
  induction l with
  | nil => intro a; exact Nat.le_refl a
  | cons x t ih => intro a; exact Nat.le_trans (Nat.le_max_left a x) (ih (max a x))

/-- C7: `detect_last_page` returns the maximum of 1 and every page number
extracted from a link carrying a `page=` parameter (so it is always at
least 1, and per-link extraction failures are skipped rather than
aborting); the claim's examples evaluate as stated, including a document
with an unparsable page link. -/
theorem detect_last_page_spec :
    (∀ links, detect_last_page links = (links.filterMap extractPageNum).foldl max 1) ∧
    (∀ links, 1 ≤ detect_last_page links) ∧
    detect_last_page
      ["https://x.com/a?page=3", "https://x.com/a?page=7", "https://x.com/a?page=2"] = 7 ∧
    detect_last_page ["https://x.com/about", "https://x.com/contact"] = 1 ∧
    detect_last_page ["https://x.com/a?page=abc", "https://x.com/a?page=7"] = 7 := by
  have h1 : ∀ links, detect_last_page links = (links.filterMap extractPageNum).foldl max 1 :=
    fun links => detect_foldl_aux links 1
  refine ⟨h1, fun links => ?_, by decide, by decide, by decide⟩
  rw [h1]
  exact le_foldl_max _ 1

/-- The head of a `dropWhile` result fails the predicate. -/
theorem head?_dropWhile_not {α : Type} (p : α → Bool) :
    ∀ (l : List α) (c : α), (l.dropWhile p).head? = some c → p c = false := by
  intro l
  induction l with
  | nil => intro c h; simp at h
  | cons a t ih =>
    intro c h
    rw [List.dropWhile_cons] at h
    by_cases hp : p a = true
    · rw [if_pos hp] at h
      exact ih c h
    · rw [if_neg hp] at h
      have : a = c := by simpa using h
      subst this
      simpa using hp

/-- A nonempty `dropWhile` result keeps the original last element. -/
theorem getLast?_dropWhile {α : Type} (p : α → Bool) :
    ∀ l : List α, l.dropWhile p ≠ [] → (l.dropWhile p).getLast? = l.getLast? := by
  intro l
  induction l with
  | nil => intro h; simp at h
  | cons a t ih =>
    intro h
    rw [List.dropWhile_cons] at h ⊢
    by_cases hp : p a = true
    · rw [if_pos hp] at h ⊢
      have ht : t ≠ [] := by
        intro htnil
        rw [htnil] at h
        simp at h
      rw [ih h]
      cases t with
      | nil => exact absurd rfl ht
      | cons b u => exact (List.getLast?_cons_cons).symm
    · rw [if_neg hp]

/-- `dropWhile` is the identity when the head already fails the
predicate. -/
theorem dropWhile_eq_self_of_head {α : Type} (p : α → Bool) (l : List α)
    (h : ∀ c, l.head? = some c → p c = false) : l.dropWhile p = l := by
  cases l with
  | nil => rfl
  | cons a t =>
    rw [List.dropWhile_cons, if_neg]
    simp [h a rfl]

/-- Stripping is idempotent on character lists. -/
theorem stripList_idem (l : List Char) : stripList (stripList l) = stripList l := by
  unfold stripList
  by_cases hBnil : (l.dropWhile pyIsSpace).reverse.dropWhile pyIsSpace = []
  · rw [hBnil]
    simp
  · have h1 : ((l.dropWhile pyIsSpace).reverse.dropWhile pyIsSpace).reverse.dropWhile pyIsSpace
        = ((l.dropWhile pyIsSpace).reverse.dropWhile pyIsSpace).reverse := by
      apply dropWhile_eq_self_of_head
      intro c hc
      rw [List.head?_reverse] at hc
      rw [getLast?_dropWhile pyIsSpace _ hBnil] at hc
      rw [List.getLast?_reverse] at hc
      exact head?_dropWhile_not pyIsSpace l c hc
    rw [h1, List.reverse_reverse]
    congr 1
    apply dropWhile_eq_self_of_head
    intro c hc
    exact head?_dropWhile_not pyIsSpace (l.dropWhile pyIsSpace).reverse c hc

/-- Stripping is idempotent on strings. -/
theorem pyStrip_idem (s : String) : pyStrip (pyStrip s) = pyStrip s :=
  congrArg String.mk (stripList_idem s.data)

/-- C2 (amended): the cleaned name is present exactly when v1 is a string
(including the empty string); when v1 is a string the name is v1 with
leading/trailing whitespace trimmed, so a present name is already
trimmed. -/
theorem cleaned_name_trims :
    (∀ r : RawIn, ((cleanRow r).name).isSome = (r.v1).isSome) ∧
    (∀ (r : RawIn) (s : String), r.v1 = some s → (cleanRow r).name = some (pyStrip s)) ∧
    (∀ (r : RawIn) (t : String), (cleanRow r).name = some t → pyStrip t = t) := by
  refine ⟨?_, ?_, ?_⟩
  · intro r
    cases hv : r.v1 with
    | none => simp [cleanRow, cleanName, hv]
    | some s => simp [cleanRow, cleanName, hv]
  · intro r s hv
    simp [cleanRow, cleanName, hv]
  · intro r t h
    cases hv : r.v1 with
    | none => simp [cleanRow, cleanName, hv] at h
    | some s =>
      simp only [cleanRow, cleanName, hv] at h
      have : pyStrip s = t := Option.some.inj h
      rw [← this]
      exact pyStrip_idem s

/-- Witness for `cleaned_name_trims`: its conditional clauses applied at
concrete raw rows. -/
theorem cleaned_name_trims_witness :
    (cleanRow ⟨none, some " Rex ", none, none, none⟩).name = some (pyStrip " Rex ") ∧
    pyStrip "Rex" = "Rex" :=
  ⟨cleaned_name_trims.2.1 ⟨none, some " Rex ", none, none, none⟩ " Rex " rfl,
   cleaned_name_trims.2.2 ⟨none, some "Rex", none, none, none⟩ "Rex" (by decide)⟩

/-- C2 counterexample: an empty-string v1 is a string, so the code keeps an
empty-string name where the claim demands an absent one
(`nameFromSpec` transcribes the claim's wording). -/
theorem cleaned_name_empty_survives :
    (cleanRow ⟨some "chiens", some "", none, none, none⟩).name = some "" ∧
    nameFromSpec (some "") = none :=
  ⟨by decide, by decide⟩

/-- The container loop appends one record per card to the in-memory rows,
whatever the store does. -/
theorem conts_foldl_fst (key url : String) (b : Bool) :
    ∀ (cs : List (Option String × Option String × Option String × Option String))
      (acc : List RawRow × List RawRow),
      (cs.foldl (scrapeContStep key url b) acc).1
        = acc.1 ++ cs.map (fun c => (⟨key, url, c.1, c.2.1, c.2.2.1, c.2.2.2⟩ : RawRow)) := by
  intro cs
  induction cs with
  | nil => intro acc; simp
  | cons c cs ih =>
    intro acc
    simp only [List.foldl_cons, List.map_cons]
    rw [ih]
    show (acc.1 ++ [⟨key, url, c.1, c.2.1, c.2.2.1, c.2.2.2⟩]) ++ _ = _
    simp [List.append_assoc]

/-- One page iteration appends exactly that page's records to the
in-memory rows. -/
theorem scrapePage_fst (key base : String) (b : Bool) (env : String → Option Soup)
    (acc : List RawRow × List RawRow) (p : Nat) :
    (scrapePage key base b env acc p).1 = acc.1 ++ pageRows key base env p := by
  unfold scrapePage pageRows
  cases env (pageUrl base p) with
  | none => simp
  | some soup => exact conts_foldl_fst key (pageUrl base p) b soup.containers acc

/-- The page loop's in-memory rows are the concatenation of the per-page
contributions, independent of the threaded store. -/
theorem pages_foldl_fst (key base : String) (b : Bool) (env : String → Option Soup) :
    ∀ (pages : List Nat) (acc : List RawRow × List RawRow),
      (pages.foldl (scrapePage key base b env) acc).1
        = acc.1 ++ (pages.map (pageRows key base env)).flatten := by
  intro pages
  induction pages with
  | nil => intro acc; simp
  | cons p pages ih =>
    intro acc
    simp only [List.foldl_cons, List.map_cons, List.flatten_cons]
    rw [ih, scrapePage_fst]
    simp [List.append_assoc]

/-- C3 (amended): the in-memory sequence `scrape_category` returns does not
depend on the persistence flag or on the prior contents of the raw store
(it is the plain concatenation of every extracted record, duplicates
included — see `scraped_rows_can_duplicate`). -/
theorem scraped_rows_ignore_store :
    ∀ (env : String → Option Soup) (key : String) (mp : Option Nat) (b1 b2 : Bool)
      (s1 s2 : List RawRow),
      (scrape_category env key mp b1 s1).map Prod.fst
        = (scrape_category env key mp b2 s2).map Prod.fst := by
  intro env key mp b1 b2 s1 s2
  unfold scrape_category
  cases lookupCategory key with
  | none => rfl
  | some base =>
    simp only [Except.map]
    rw [pages_foldl_fst, pages_foldl_fst]

/-- C3 counterexample: a page with two identical cards makes
`scrape_category` return two records equal on the raw identity
(category, v1, v2, v3, v4) — the returned sequence is not deduplicated,
while the persisted store keeps a single copy. -/
theorem scraped_rows_can_duplicate :
    scrape_category envTwinCards "chiens" none true [] = .ok ([rowTwin, rowTwin], [rowTwin]) := by
  rfl

/-- C9: the category scrape fails exactly on an unrecognized category key
(and then with that key's `UnknownCategoryError`); a failed fetch of the
first page makes the page count fall back to 1; and for a recognized key
the scrape always succeeds, each page contributing its extracted records —
a page whose fetch fails contributes nothing (`pageRows` is empty there)
without aborting the others. -/
theorem scrape_failure_semantics :
    (∀ (env : String → Option Soup) (key : String) (mp : Option Nat) (b : Bool) store,
        (scrape_category env key mp b store).toBool = (lookupCategory key).isSome) ∧
    (∀ (env : String → Option Soup) (key : String) (mp : Option Nat) (b : Bool) store,
        lookupCategory key = none →
        scrape_category env key mp b store = .error ⟨key⟩) ∧
    (∀ (env : String → Option Soup) (base : String) (mp : Option Nat),
        env base = none → computeLast env base mp = 1) ∧
    (∀ (env : String → Option Soup) (key base : String) (mp : Option Nat) (b : Bool) store,
        lookupCategory key = some base →
        (scrape_category env key mp b store).map Prod.fst =
          .ok ((List.range' 1 (computeLast env base mp)).map (pageRows key base env)).flatten) := by
  refine ⟨?_, ?_, ?_, ?_⟩
  · intro env key mp b store
    unfold scrape_category
    cases lookupCategory key with
    | none => rfl
    | some base => rfl
  · intro env key mp b store h
    unfold scrape_category
    rw [h]
  · intro env base mp h
    unfold computeLast
    rw [h]
    cases mp with
    | none => rfl
    | some m =>
      by_cases hm : 0 < m
      · simp [hm, Nat.min_eq_left hm]
      · simp [hm]
  · intro env key base mp b store h
    unfold scrape_category
    rw [h]
    simp only [Except.map]
    rw [pages_foldl_fst]
    rfl

/-- Witness for `scrape_failure_semantics`: an unknown key fails with that
key's error, and a failing first-page fetch yields a page count of 1. -/
theorem scrape_failure_semantics_witness :
    scrape_category (fun _ => none) "zebres" none true [] = .error ⟨"zebres"⟩ ∧
    computeLast (fun _ => none) "https://sn.coinafrique.com/categorie/chiens" none = 1 :=
  ⟨scrape_failure_semantics.2.1 (fun _ => none) "zebres" none true [] rfl,
   scrape_failure_semantics.2.2.1 (fun _ => none) "https://sn.coinafrique.com/categorie/chiens"
     none rfl⟩

/-- C1: rerunning the category scrape over identical fetched content
re-inserts a raw record whose price field is `None`: the SQL duplicate
query compares `v2 = NULL`, which never selects a row, so the second run
inserts 1 new row (a second, identical copy) instead of 0. -/
theorem scraper_rerun_reinserts_null_rows :
    scrape_category envNullPrice "chiens" none true [] = .ok ([rowNullPrice], [rowNullPrice]) ∧
    scrape_category envNullPrice "chiens" none true [rowNullPrice]
      = .ok ([rowNullPrice], [rowNullPrice, rowNullPrice]) :=
  ⟨rfl, rfl⟩

/-- The cleaning loop appends one cleaned record per raw row to the
in-memory result, whatever the store does. -/
theorem clean_foldl_fst :
    ∀ (df : List RawIn) (acc : List CleanedRow × List CleanedRow),
      (df.foldl cleanStep acc).1 = acc.1 ++ df.map cleanRow := by
  intro df
  induction df with
  | nil => intro acc; simp
  | cons r df ih =>
    intro acc
    simp only [List.foldl_cons, List.map_cons]
    rw [ih]
    show (acc.1 ++ [cleanRow r]) ++ _ = _
    simp [List.append_assoc]

/-- C10: the cleaned table `clean_raw_dataframe` returns is the same
whatever the cleaned store previously held — the store influences only
which rows get inserted, never the returned value. -/
theorem cleaned_result_ignores_store :
    ∀ (df : List RawIn) (s1 s2 : List CleanedRow),
      (clean_raw_dataframe df s1).1 = (clean_raw_dataframe df s2).1 := by
  intro df s1 s2
  show drop_duplicates_npa (df.foldl cleanStep ([], s1)).1
      = drop_duplicates_npa (df.foldl cleanStep ([], s2)).1
  rw [clean_foldl_fst, clean_foldl_fst]

/-- C8: recleaning the same raw table re-inserts a cleaned record whose
price and address are absent: the SQL duplicate query compares
`price = NULL`, which never selects a row, so the second run doubles the
cleaned store instead of inserting 0 new rows. -/
theorem cleaner_rerun_reinserts_null_rows :
    clean_raw_dataframe dfNullFields [] = ([crNullFields], [crNullFields]) ∧
    clean_raw_dataframe dfNullFields [crNullFields]
      = ([crNullFields], [crNullFields, crNullFields]) :=
  ⟨by decide, by decide⟩

/-- From any starting count, the import loop adds the count it would
produce from zero, acting identically on the store. -/
theorem upload_count_shift :
    ∀ (df : List UploadRow) (n : Nat) (store : List RawRow),
      df.foldl uploadStep (n, store)
        = (n + (df.foldl uploadStep (0, store)).1, (df.foldl uploadStep (0, store)).2) := by
  intro df
  induction df with
  | nil => intro n store; simp
  | cons row df ih =>
    intro n store
    simp only [List.foldl_cons]
    by_cases h : store.any (uploadDup row)
    · rw [show uploadStep (n, store) row = (n, store) from by simp [uploadStep, h],
        show uploadStep (0, store) row = (0, store) from by simp [uploadStep, h]]
      exact ih n store
    · rw [show uploadStep (n, store) row = (n + 1, store ++ [mappedRow row]) from by
        simp [uploadStep, h],
        show uploadStep (0, store) row = (1, store ++ [mappedRow row]) from by
        simp [uploadStep, h]]
      rw [ih (n + 1) (store ++ [mappedRow row]), ih 1 (store ++ [mappedRow row])]
      simp [Nat.add_assoc]

/-- The raw store grows by exactly the returned saved-count. -/
theorem upload_store_grows_by_count :
    ∀ (df : List UploadRow) (store : List RawRow),
      (save_uploaded_to_raw df store).2.length
        = store.length + (save_uploaded_to_raw df store).1 := by
  intro df
  induction df with
  | nil => intro store; simp [save_uploaded_to_raw]
  | cons row df ih =>
    intro store
    unfold save_uploaded_to_raw
    simp only [List.foldl_cons]
    by_cases h : store.any (uploadDup row)
    · rw [show uploadStep (0, store) row = (0, store) from by simp [uploadStep, h]]
      exact ih store
    · rw [show uploadStep (0, store) row = (1, store ++ [mappedRow row]) from by
        simp [uploadStep, h]]
      rw [upload_count_shift df 1 (store ++ [mappedRow row])]
      have hlen := ih (store ++ [mappedRow row])
      unfold save_uploaded_to_raw at hlen
      simp only [List.length_append, List.length_cons, List.length_nil] at hlen ⊢
      omega

/-- C4: the import adapter returns the count of rows actually inserted
(the store grows by exactly that count); a single row is inserted exactly
when the raw store has no exact match on its four stringified fields; and
the claim's example row maps price-less/address-less columns to the
`"None"` sentinel, is saved on first import, and is skipped on the second
identical import. -/
theorem import_adapter_dedups :
    (∀ (df : List UploadRow) (store : List RawRow),
        (save_uploaded_to_raw df store).2.length
          = store.length + (save_uploaded_to_raw df store).1) ∧
    (∀ (row : UploadRow) (store : List RawRow),
        save_uploaded_to_raw [row] store =
          if store.any (uploadDup row) then (0, store) else (1, store ++ [mappedRow row])) ∧
    mappedRow rexRow = rexMapped ∧
    rexMapped.v3 = some "None" ∧ rexMapped.v4 = some "None" ∧
    save_uploaded_to_raw [rexRow] [] = (1, [rexMapped]) ∧
    save_uploaded_to_raw [rexRow] [rexMapped] = (0, [rexMapped]) := by
  refine ⟨upload_store_grows_by_count, ?_, by decide, rfl, rfl, by decide, by decide⟩
  intro row store
  unfold save_uploaded_to_raw
  simp only [List.foldl_cons, List.foldl_nil]
  by_cases h : store.any (uploadDup row)
  · simp [uploadStep, h]
  · simp [uploadStep, h]

end MyDataApp
